import Mathlib

/-!
Verification of the environment-configuration core of `environment-weaver`.

The development shallowly embeds, from the TypeScript source:
* the environment config resolver (`environment.ts`: `configs`, `getConfig`),
* the log admission filter (`LogViewer`: `logLevelPriority`, `filteredLogs`),
* the feature-flag registry and evaluator (`featureFlags.ts`: `isFeatureEnabled`),
* the A/B-testing experiment simulator (`ABTestingSimulator.tsx`:
  `simulateUser`, `resetSimulation`, `getWinningVariant`).

JavaScript numbers are modelled as rationals (`ℚ`), so arithmetic and
comparisons are exact; `Math.random()` results are modelled as explicitly
passed draws `u : ℚ` with `0 ≤ u < 1`.
-/

/-- The closed enumeration of deployment environments
(`type Environment = 'development' | 'staging' | 'production'`). -/
inductive Environment where
  | development
  | staging
  | production
deriving DecidableEq, Repr

/-- Log severities (`type LogLevel = 'debug' | 'info' | 'warn' | 'error'`). -/
inductive LogLevel where
  | debug
  | info
  | warn
  | error
deriving DecidableEq, Repr

/-- The `features` record nested in `EnvironmentConfig`. -/
structure Features where
  analytics : Bool
  errorReporting : Bool
  experimentalFeatures : Bool
deriving DecidableEq, Repr

/-- `interface EnvironmentConfig` from `environment.ts`. -/
structure EnvironmentConfig where
  name : Environment
  displayName : String
  apiUrl : String
  debugMode : Bool
  logLevel : LogLevel
  features : Features
deriving DecidableEq, Repr

/-- The fixed table `configs : Record<Environment, EnvironmentConfig>` from
`environment.ts`. A TypeScript `Record` keyed by a closed union is total, so it
is embedded as a total function. -/
def configs : Environment → EnvironmentConfig
  | .development =>
    { name := .development
      displayName := "Development"
      apiUrl := "http://localhost:3000/api"
      debugMode := true
      logLevel := .debug
      features :=
        { analytics := false
          errorReporting := false
          experimentalFeatures := true } }
  | .staging =>
    { name := .staging
      displayName := "Staging"
      apiUrl := "https://staging-api.example.com"
      debugMode := true
      logLevel := .info
      features :=
        { analytics := true
          errorReporting := true
          experimentalFeatures := true } }
  | .production =>
    { name := .production
      displayName := "Production"
      apiUrl := "https://api.example.com"
      debugMode := false
      logLevel := .error
      features :=
        { analytics := true
          errorReporting := true
          experimentalFeatures := false } }

/-- `logLevelPriority : Record<LogLevel, number>` from the log viewer:
`debug: 0, info: 1, warn: 2, error: 3`. -/
def logLevelPriority : LogLevel → ℕ
  | .debug => 0
  | .info => 1
  | .warn => 2
  | .error => 3

/-- `interface LogEntry` from the log viewer. The JavaScript `Date` timestamp
is modelled as an abstract tick count; it plays no role in filtering. -/
structure LogEntry where
  id : String
  timestamp : ℕ
  level : LogLevel
  message : String
  source : String
deriving DecidableEq, Repr

/-- `minPriority = logLevelPriority[minLogLevel]` where
`minLogLevel = config.logLevel` (log viewer, lines 95-96). -/
def minPriorityOf (config : EnvironmentConfig) : ℕ :=
  logLevelPriority config.logLevel

/-- The `filteredLogs` computation of the log viewer (lines 124-129): an entry
passes when `logLevelPriority[log.level] >= minPriority` (the environment
filter) and the user-selected filter is `'all'` (here `none`) or matches the
entry's level. -/
def filteredLogs (logs : List LogEntry) (config : EnvironmentConfig)
    (filter : Option LogLevel) : List LogEntry :=
  logs.filter fun log =>
    decide (logLevelPriority log.level ≥ minPriorityOf config) &&
      (match filter with
       | none => true
       | some lv => log.level == lv)

/-- The optional `metadata` record on a feature flag. -/
structure FlagMetadata where
  owner : String
  createdAt : String
  expiresAt : Option String := none
  jiraTicket : Option String := none
deriving DecidableEq, Repr

/-- `interface FeatureFlag` from `featureFlags.ts`. The per-environment
`enabled: Record<Environment, boolean>` is embedded as a total function, and
the optional `rolloutPercentage` as an `Option ℚ`. -/
structure FeatureFlag where
  id : String
  name : String
  description : String
  enabled : Environment → Bool
  rolloutPercentage : Option ℚ := none
  metadata : Option FlagMetadata := none

/-- Registry entry `dark_mode_v2`. -/
def darkModeV2Flag : FeatureFlag :=
  { id := "dark_mode_v2"
    name := "Dark Mode V2"
    description := "Nuova versione del tema scuro con migliore contrasto e accessibilita"
    enabled := fun env =>
      match env with
      | .development => true
      | .staging => true
      | .production => false
    rolloutPercentage := some 100
    metadata := some { owner := "Team UI/UX", createdAt := "2024-01-15", jiraTicket := some "UI-1234" } }

/-- Registry entry `new_dashboard`. -/
def newDashboardFlag : FeatureFlag :=
  { id := "new_dashboard"
    name := "New Dashboard Layout"
    description := "Dashboard ridisegnata con widget drag-and-drop e personalizzazione"
    enabled := fun env =>
      match env with
      | .development => true
      | .staging => true
      | .production => true
    rolloutPercentage := some 50
    metadata := some { owner := "Team Product", createdAt := "2024-02-01", jiraTicket := some "DASH-567" } }

/-- Registry entry `ai_suggestions` (no rollout percentage). -/
def aiSuggestionsFlag : FeatureFlag :=
  { id := "ai_suggestions"
    name := "AI-Powered Suggestions"
    description := "Suggerimenti intelligenti basati su machine learning"
    enabled := fun env =>
      match env with
      | .development => true
      | .staging => false
      | .production => false
    metadata := some { owner := "Team ML", createdAt := "2024-03-01", expiresAt := some "2024-12-31" } }

/-- Registry entry `beta_api_v2`. -/
def betaApiV2Flag : FeatureFlag :=
  { id := "beta_api_v2"
    name := "API V2 Beta"
    description := "Nuova versione delle API con performance migliorate"
    enabled := fun env =>
      match env with
      | .development => true
      | .staging => true
      | .production => false
    rolloutPercentage := some 25
    metadata := some { owner := "Team Backend", createdAt := "2024-02-15", jiraTicket := some "API-890" } }

/-- Registry entry `export_pdf`. -/
def exportPdfFlag : FeatureFlag :=
  { id := "export_pdf"
    name := "PDF Export"
    description := "Permette agli utenti di esportare report in formato PDF"
    enabled := fun env =>
      match env with
      | .development => true
      | .staging => true
      | .production => true
    rolloutPercentage := some 100
    metadata := some { owner := "Team Reports", createdAt := "2023-12-01" } }

/-- The central registry `featureFlags: FeatureFlag[]` from `featureFlags.ts`. -/
def featureFlags : List FeatureFlag :=
  [darkModeV2Flag, newDashboardFlag, aiSuggestionsFlag, betaApiV2Flag, exportPdfFlag]

/-- The observable outcome of one `isFeatureEnabled` call: the boolean result
together with whether the `console.warn` branch for a missing flag fired. -/
structure FlagDecision where
  enabled : Bool
  warnedNotFound : Bool
deriving DecidableEq, Repr

/-- `isFeatureEnabled` from `featureFlags.ts`. The ambient
`getCurrentEnvironment()` is passed explicitly as `currentEnv`, and the single
`Math.random()` call of the rollout branch is passed as the draw `u ∈ [0,1)`.
Unknown flags warn and evaluate to `false`; a disabled environment gate returns
`false` before any randomness; the random branch runs only when
`rolloutPercentage` is present and `< 100`, and compares `u * 100` with it. -/
def isFeatureEnabled (flags : List FeatureFlag) (flagId : String)
    (currentEnv : Environment) (u : ℚ) : FlagDecision :=
  match flags.find? (fun f => f.id == flagId) with
  | none => { enabled := false, warnedNotFound := true }
  | some flag =>
    if flag.enabled currentEnv = false then
      { enabled := false, warnedNotFound := false }
    else
      match flag.rolloutPercentage with
      | some p =>
        if p < 100 then
          { enabled := decide (u * 100 < p), warnedNotFound := false }
        else
          { enabled := true, warnedNotFound := false }
      | none => { enabled := true, warnedNotFound := false }

/-- `getAllFeatureFlags` from `featureFlags.ts`: every flag paired with its
deterministic environment-gate state for the current environment. -/
def getAllFeatureFlags (flags : List FeatureFlag) (currentEnv : Environment) :
    List (FeatureFlag × Bool) :=
  flags.map fun flag => (flag, flag.enabled currentEnv)

/-- `interface Variant` from `ABTestingSimulator.tsx`. The `conversionRate`
field is the variant's simulated base conversion rate. -/
structure Variant where
  id : String
  name : String
  description : String
  color : String
  conversionRate : ℚ
deriving DecidableEq, Repr, Inhabited

/-- `interface ExperimentResult`: running per-variant counters. -/
structure ExperimentResult where
  variantId : String
  users : ℕ
  conversions : ℕ
  conversionRate : ℚ
deriving DecidableEq, Repr

/-- The `status` union on `Experiment`. -/
inductive ExperimentStatus where
  | draft
  | running
  | paused
  | completed
deriving DecidableEq, Repr

/-- `interface Experiment` from `ABTestingSimulator.tsx`. -/
structure Experiment where
  id : String
  name : String
  description : String
  rolloutPercentage : ℚ
  variants : List Variant
  status : ExperimentStatus
deriving DecidableEq, Repr

/-- First entry of the `experiments` array: the checkout-button test. -/
def checkoutButtonExperiment : Experiment :=
  { id := "checkout-button"
    name := "Checkout Button Color"
    description := "Test del colore del bottone di checkout per aumentare le conversioni"
    rolloutPercentage := 50
    status := .running
    variants :=
      [ { id := "control", name := "Control (Verde)", description := "Bottone verde attuale",
          color := "bg-green-500", conversionRate := 32/10 },
        { id := "variant-a", name := "Variant A (Blu)", description := "Bottone blu primario",
          color := "bg-blue-500", conversionRate := 38/10 } ] }

/-- Second entry of the `experiments` array: the pricing-page layout test. -/
def pricingDisplayExperiment : Experiment :=
  { id := "pricing-display"
    name := "Pricing Page Layout"
    description := "Test layout della pagina prezzi: cards vs tabella"
    rolloutPercentage := 25
    status := .running
    variants :=
      [ { id := "control", name := "Cards Layout", description := "Layout a schede verticali",
          color := "bg-purple-500", conversionRate := 21/10 },
        { id := "variant-a", name := "Table Layout", description := "Layout tabellare comparativo",
          color := "bg-orange-500", conversionRate := 28/10 },
        { id := "variant-b", name := "Horizontal Cards", description := "Schede orizzontali",
          color := "bg-pink-500", conversionRate := 24/10 } ] }

/-- The fixed `experiments` array. -/
def experiments : List Experiment :=
  [checkoutButtonExperiment, pricingDisplayExperiment]

/-- The component state of `ABTestingSimulator` that the simulation logic
touches: the selected experiment, the `isSimulating` toggle, the total-user
counter, the per-variant results, and the rollout slider value. -/
structure SimState where
  selectedExperiment : Experiment
  isSimulating : Bool
  totalUsers : ℕ
  results : List ExperimentResult
  rollout : ℚ
deriving DecidableEq, Repr

/-- The zeroed result row for one variant; both the results-initialization
effect and `resetSimulation` build their rows with exactly this mapping. -/
def initResults (variants : List Variant) : List ExperimentResult :=
  variants.map fun v =>
    { variantId := v.id, users := 0, conversions := 0, conversionRate := 0 }

/-- Selecting an experiment: the button handler sets `selectedExperiment` and
stops the simulation, and the `useEffect` keyed on `selectedExperiment` then
zeroes the results and the total-user counter and resets the rollout slider to
the experiment's own percentage. The previous state is fully replaced. -/
def selectExperiment (e : Experiment) : SimState :=
  { selectedExperiment := e
    isSimulating := false
    totalUsers := 0
    results := initResults e.variants
    rollout := e.rolloutPercentage }

/-- The initial state: `useState(experiments[0])` followed by the
initialization effect. -/
def initState : SimState :=
  selectExperiment checkoutButtonExperiment

/-- The adjusted conversion rate computed on line 106 of the simulator:
`variant.conversionRate + (Math.random() - 0.5) * 0.5`, with the draw
`u ∈ [0,1)` passed explicitly. Note that the source applies no clamping. -/
def adjustedRateOf (variant : Variant) (u : ℚ) : ℚ :=
  variant.conversionRate + (u - 1/2) * (1/2)

/-- Clamping to an interval, as the specification describes it
(`clamp(x, lo, hi)`); stated here only to compare against `adjustedRateOf`. -/
def clampQ (x lo hi : ℚ) : ℚ :=
  max lo (min x hi)

/-- The per-row update that `simulateUser` maps over `prev` inside
`setResults`: the row whose `variantId` matches the chosen variant gets one
more user, one more conversion when `converted`, and a recomputed
`conversionRate = (newConversions / newUsers) * 100`; all other rows are
returned unchanged. -/
def updateRow (variant : Variant) (converted : Bool) (r : ExperimentResult) :
    ExperimentResult :=
  if r.variantId == variant.id then
    let newUsers := r.users + 1
    let newConversions := r.conversions + (if converted then 1 else 0)
    { r with
      users := newUsers
      conversions := newConversions
      conversionRate := ((newConversions : ℚ) / (newUsers : ℚ)) * 100 }
  else r

/-- One step of `simulateUser` from `ABTestingSimulator.tsx`, with the four
`Math.random()` draws passed explicitly in call order: `u₁` gates admission
(`u₁ * 100 < rollout`), `u₂` picks the variant index
(`Math.floor(u₂ * variants.length)`), `u₃ ` feeds the rate jitter and `u₄` the
conversion draw (`u₄ * 100 < adjustedRate`). A non-admitted user changes
nothing. JavaScript out-of-range indexing cannot occur for the registry's
experiments (every variant list is non-empty and `u₂ < 1`); `getD` supplies a
default for totality. -/
def simulateUser (u₁ u₂ u₃ u₄ : ℚ) (s : SimState) : SimState :=
  if u₁ * 100 < s.rollout then
    let variants := s.selectedExperiment.variants
    let variantIndex : ℕ := (⌊u₂ * variants.length⌋).toNat
    let variant := variants.getD variantIndex default
    let adjustedRate := adjustedRateOf variant u₃
    let converted : Bool := decide (u₄ * 100 < adjustedRate)
    { s with
      totalUsers := s.totalUsers + 1
      results := s.results.map (updateRow variant converted) }
  else s

/-- `resetSimulation`: stops the simulation, zeroes the total-user counter and
rebuilds the zeroed per-variant rows (the source inlines the same mapping used
by the initialization effect). -/
def resetSimulation (s : SimState) : SimState :=
  { s with
    isSimulating := false
    totalUsers := 0
    results := initResults s.selectedExperiment.variants }

/-- `getWinningVariant`: `null` under 100 total users, otherwise
`results.reduce((a, b) => a.conversionRate > b.conversionRate ? a : b)`.
JavaScript `reduce` without an initial value starts from the first element;
on an empty array it would throw (the component never reaches that case, every
experiment having at least two variants), so the embedding returns `none`
there for totality. -/
def getWinningVariant (totalUsers : ℕ) (results : List ExperimentResult) :
    Option ExperimentResult :=
  if totalUsers < 100 then none
  else
    match results with
    | [] => none
    | r :: rs =>
      some (rs.foldl (fun a b => if a.conversionRate > b.conversionRate then a else b) r)

/-- The operations the claims range over: selecting an experiment, one
`simulateUser` step (with its four draws), and `resetSimulation`. -/
inductive SimOp where
  | select (e : Experiment)
  | simulate (u₁ u₂ u₃ u₄ : ℚ)
  | reset
deriving DecidableEq, Repr

/-- Applying one operation to the component state. -/
def stepOp (s : SimState) (op : SimOp) : SimState :=
  match op with
  | .select e => selectExperiment e
  | .simulate u₁ u₂ u₃ u₄ => simulateUser u₁ u₂ u₃ u₄ s
  | .reset => resetSimulation s

/-- Validity of an operation as the component can actually issue it: selected
experiments come from the fixed `experiments` array, and every `Math.random()`
draw lies in `[0,1)`. -/
def ValidOp : SimOp → Prop
  | .select e => e ∈ experiments
  | .simulate u₁ u₂ u₃ u₄ =>
      (0 ≤ u₁ ∧ u₁ < 1) ∧ (0 ≤ u₂ ∧ u₂ < 1) ∧ (0 ≤ u₃ ∧ u₃ < 1) ∧ (0 ≤ u₄ ∧ u₄ < 1)
  | .reset => True

instance : DecidablePred ValidOp := by
  intro op
  cases op with
  | select e => exact inferInstanceAs (Decidable (e ∈ experiments))
  | simulate u₁ u₂ u₃ u₄ => exact inferInstanceAs (Decidable (_ ∧ _))
  | reset => exact inferInstanceAs (Decidable True)

/-- Demo stream used to instantiate the log-admission theorem. -/
def demoLogs : List LogEntry :=
  [ { id := "1", timestamp := 0, level := .debug, message := "m1", source := "React" },
    { id := "2", timestamp := 1, level := .info, message := "m2", source := "Auth" },
    { id := "3", timestamp := 2, level := .warn, message := "m3", source := "API" },
    { id := "4", timestamp := 3, level := .error, message := "m4", source := "API" } ]

/-- Filtering with a pointwise weaker predicate keeps at least as many
elements. -/
theorem length_filter_le_of_imp {α : Type} (l : List α) (p q : α → Bool)
    (h : ∀ a, p a = true → q a = true) :
    (l.filter p).length ≤ (l.filter q).length := by
  induction l with
  | nil => simp
  | cons a t ih =>
    rw [List.filter_cons, List.filter_cons]
    by_cases hp : p a = true
    · rw [if_pos hp, if_pos (h a hp)]
      simpa using ih
    · rw [if_neg hp]
      by_cases hq : q a = true
      · rw [if_pos hq]
        exact Nat.le_trans ih (Nat.le_succ _)
      · rw [if_neg hq]
        exact ih

/-- C8: for every `Environment` value the resolver returns the config of the
fixed table: `production.logLevel = error` with experimental features off,
`development.logLevel = debug` with analytics off, `staging.logLevel = info`,
and each environment's `apiUrl` matches the table; the lookup is a total
function carrying its own environment name, with no error case. -/
theorem configs_match_fixed_table :
    (∀ env : Environment, (configs env).name = env) ∧
    (configs .production).logLevel = .error ∧
    (configs .production).features.experimentalFeatures = false ∧
    (configs .development).logLevel = .debug ∧
    (configs .development).features.analytics = false ∧
    (configs .staging).logLevel = .info ∧
    (configs .development).apiUrl = "http://localhost:3000/api" ∧
    (configs .staging).apiUrl = "https://staging-api.example.com" ∧
    (configs .production).apiUrl = "https://api.example.com" :=
  ⟨fun env => by cases env <;> rfl, rfl, rfl, rfl, rfl, rfl, rfl, rfl, rfl⟩

/-- C6: an entry is admitted exactly when its severity rank is at least the
rank of the config's minimum severity; admission is monotone (raising the
minimum severity only shrinks the admitted set and its count); hence for any
fixed stream the admitted counts are ordered
`debug ≥ info ≥ warn ≥ error`. -/
theorem admission_rank_monotone :
    (∀ (logs : List LogEntry) (log : LogEntry) (cfg : EnvironmentConfig),
      log ∈ filteredLogs logs cfg none ↔
        log ∈ logs ∧ logLevelPriority cfg.logLevel ≤ logLevelPriority log.level) ∧
    (∀ (logs : List LogEntry) (c₁ c₂ : EnvironmentConfig),
      logLevelPriority c₁.logLevel ≤ logLevelPriority c₂.logLevel →
        (∀ log, log ∈ filteredLogs logs c₂ none → log ∈ filteredLogs logs c₁ none) ∧
        (filteredLogs logs c₂ none).length ≤ (filteredLogs logs c₁ none).length) ∧
    (∀ (logs : List LogEntry) (cfg : EnvironmentConfig),
      (filteredLogs logs { cfg with logLevel := .error } none).length ≤
        (filteredLogs logs { cfg with logLevel := .warn } none).length ∧
      (filteredLogs logs { cfg with logLevel := .warn } none).length ≤
        (filteredLogs logs { cfg with logLevel := .info } none).length ∧
      (filteredLogs logs { cfg with logLevel := .info } none).length ≤
        (filteredLogs logs { cfg with logLevel := .debug } none).length) := by
  have hmem : ∀ (logs : List LogEntry) (log : LogEntry) (cfg : EnvironmentConfig),
      log ∈ filteredLogs logs cfg none ↔
        log ∈ logs ∧ logLevelPriority cfg.logLevel ≤ logLevelPriority log.level := by
    intro logs log cfg
    simp [filteredLogs, List.mem_filter, minPriorityOf, ge_iff_le]
  have hlen : ∀ (logs : List LogEntry) (c₁ c₂ : EnvironmentConfig),
      logLevelPriority c₁.logLevel ≤ logLevelPriority c₂.logLevel →
        (filteredLogs logs c₂ none).length ≤ (filteredLogs logs c₁ none).length := by
    intro logs c₁ c₂ h
    refine length_filter_le_of_imp logs _ _ ?_
    intro log hp
    simp only [minPriorityOf, Bool.and_eq_true, decide_eq_true_eq, ge_iff_le] at hp ⊢
    exact ⟨le_trans h hp.1, hp.2⟩
  refine ⟨hmem, ?_, ?_⟩
  · intro logs c₁ c₂ h
    refine ⟨?_, hlen logs c₁ c₂ h⟩
    intro log hm
    rw [hmem] at hm ⊢
    exact ⟨hm.1, le_trans h hm.2⟩
  · intro logs cfg
    refine ⟨hlen logs _ _ ?_, hlen logs _ _ ?_, hlen logs _ _ ?_⟩ <;>
      simp [logLevelPriority]

/-- C6 instantiation: on a concrete stream, the count admitted with the
production minimum severity is at most the count admitted with the
development one. -/
theorem admission_rank_monotone_applied :
    (filteredLogs demoLogs (configs .production) none).length ≤
      (filteredLogs demoLogs (configs .development) none).length :=
  (admission_rank_monotone.2.1 demoLogs (configs .development) (configs .production)
    (by decide)).2

/-- C3: for every flag the lookup resolves and every environment in which that
flag's environment gate is `false`, `isFeatureEnabled` evaluates to `false`
whatever the rollout percentage and whatever random value is drawn. -/
theorem envGate_dominates (flags : List FeatureFlag) (flagId : String)
    (env : Environment) (u : ℚ) (flag : FeatureFlag)
    (hfind : flags.find? (fun f => f.id == flagId) = some flag)
    (henv : flag.enabled env = false) :
    (isFeatureEnabled flags flagId env u).enabled = false := by
  unfold isFeatureEnabled
  rw [hfind]
  simp [henv]

/-- C3 instantiation: `dark_mode_v2` is gated off in production, so it
evaluates to `false` there despite its 100% rollout. -/
theorem envGate_dominates_applied :
    (isFeatureEnabled featureFlags "dark_mode_v2" .production 0).enabled = false :=
  envGate_dominates featureFlags "dark_mode_v2" .production 0 darkModeV2Flag
    (by rfl) (by rfl)

/-- C4: once the environment gate is `true`, an absent rollout percentage or
one at least 100 yields `true` for every draw; a zero rollout yields `false`
for every nonnegative draw; and a rollout `p < 100` yields exactly the
comparison of the scaled draw `u * 100` with `p`. -/
theorem postGate_rollout (flags : List FeatureFlag) (flagId : String)
    (env : Environment) (u : ℚ) (flag : FeatureFlag)
    (hfind : flags.find? (fun f => f.id == flagId) = some flag)
    (henv : flag.enabled env = true) :
    (flag.rolloutPercentage = none →
      (isFeatureEnabled flags flagId env u).enabled = true) ∧
    (∀ p, flag.rolloutPercentage = some p → 100 ≤ p →
      (isFeatureEnabled flags flagId env u).enabled = true) ∧
    (flag.rolloutPercentage = some 0 → 0 ≤ u →
      (isFeatureEnabled flags flagId env u).enabled = false) ∧
    (∀ p, flag.rolloutPercentage = some p → p < 100 →
      (isFeatureEnabled flags flagId env u).enabled = decide (u * 100 < p)) := by
  have hne : ¬ flag.enabled env = false := by simp [henv]
  unfold isFeatureEnabled
  rw [hfind]
  refine ⟨?_, ?_, ?_, ?_⟩
  · intro h0
    simp [hne, h0]
  · intro p hp h100
    simp [hne, hp, not_lt.mpr h100]
  · intro hp hu
    have h0 : (0 : ℚ) < 100 := by norm_num
    have hnot : ¬ u * 100 < 0 := not_lt.mpr (mul_nonneg hu (by norm_num))
    simp [hne, hp, h0, hnot]
  · intro p hp hlt
    simp [hne, hp, hlt]

/-- C4 instantiation: `new_dashboard` is gated on in production with a 50%
rollout, and the draw 0 is admitted. -/
theorem postGate_rollout_applied :
    (isFeatureEnabled featureFlags "new_dashboard" .production 0).enabled = true := by
  have h := (postGate_rollout featureFlags "new_dashboard" .production 0
    newDashboardFlag (by rfl) (by rfl)).2.2.2 50 (by rfl) (by norm_num)
  rw [h]
  norm_num

/-- C5: a flag id that matches nothing in the registry makes
`isFeatureEnabled` warn (the observable `FlagNotFound` condition) and evaluate
to `false` — unknown flags fail closed. -/
theorem unknown_flag_fails_closed (flags : List FeatureFlag) (flagId : String)
    (env : Environment) (u : ℚ)
    (hfind : flags.find? (fun f => f.id == flagId) = none) :
    isFeatureEnabled flags flagId env u =
      { enabled := false, warnedNotFound := true } := by
  unfold isFeatureEnabled
  rw [hfind]

/-- C5 instantiation: the id `dark_mode_v3` is in no registry entry. -/
theorem unknown_flag_fails_closed_applied :
    isFeatureEnabled featureFlags "dark_mode_v3" .production 0 =
      { enabled := false, warnedNotFound := true } :=
  unknown_flag_fails_closed featureFlags "dark_mode_v3" .production 0 (by rfl)

/-- C9: `resetSimulation` is idempotent — a second consecutive reset returns
the identical state — and the reset state has `totalUsers = 0` and every
per-variant counter (users, conversions, conversion rate) at zero. -/
theorem reset_idempotent_zeroed (s : SimState) :
    resetSimulation (resetSimulation s) = resetSimulation s ∧
    (resetSimulation s).totalUsers = 0 ∧
    ∀ r ∈ (resetSimulation s).results,
      r.users = 0 ∧ r.conversions = 0 ∧ r.conversionRate = 0 := by
  refine ⟨rfl, rfl, ?_⟩
  intro r hr
  simp only [resetSimulation, initResults, List.mem_map] at hr
  obtain ⟨v, _, rfl⟩ := hr
  exact ⟨rfl, rfl, rfl⟩

/-- C9 instantiation at the initial state, with the zeroed row of the
`control` variant read back explicitly. -/
theorem reset_idempotent_zeroed_applied :
    resetSimulation (resetSimulation initState) = resetSimulation initState ∧
    (resetSimulation initState).totalUsers = 0 ∧
    ({ variantId := "control", users := 0, conversions := 0, conversionRate := 0 } :
        ExperimentResult).users = 0 ∧
    ({ variantId := "control", users := 0, conversions := 0, conversionRate := 0 } :
        ExperimentResult).conversions = 0 ∧
    ({ variantId := "control", users := 0, conversions := 0, conversionRate := 0 } :
        ExperimentResult).conversionRate = 0 :=
  ⟨(reset_idempotent_zeroed initState).1, (reset_idempotent_zeroed initState).2.1,
    (reset_idempotent_zeroed initState).2.2
      { variantId := "control", users := 0, conversions := 0, conversionRate := 0 }
      (by decide)⟩

/-- C7: a `simulateUser` call whose admission draw satisfies
`u₁ * 100 ≥ rollout` changes nothing, and with the rollout at 0 every call of
any sequence of nonnegatively-drawn users is a no-op, so the state (in
particular `totalUsers`) never moves. -/
theorem simulateUser_frame :
    (∀ (u₁ u₂ u₃ u₄ : ℚ) (s : SimState), s.rollout ≤ u₁ * 100 →
      simulateUser u₁ u₂ u₃ u₄ s = s) ∧
    (∀ (draws : List (ℚ × ℚ × ℚ × ℚ)) (s : SimState), s.rollout = 0 →
      (∀ d ∈ draws, 0 ≤ d.1) →
      draws.foldl (fun t d => simulateUser d.1 d.2.1 d.2.2.1 d.2.2.2 t) s = s) := by
  have h1 : ∀ (u₁ u₂ u₃ u₄ : ℚ) (s : SimState), s.rollout ≤ u₁ * 100 →
      simulateUser u₁ u₂ u₃ u₄ s = s := by
    intro u₁ u₂ u₃ u₄ s h
    unfold simulateUser
    rw [if_neg (not_lt.mpr h)]
  refine ⟨h1, ?_⟩
  intro draws
  induction draws with
  | nil => intro s _ _; rfl
  | cons d ds ih =>
    intro s h0 hd
    have hs : simulateUser d.1 d.2.1 d.2.2.1 d.2.2.2 s = s := by
      apply h1
      rw [h0]
      exact mul_nonneg (hd d (by simp)) (by norm_num)
    rw [List.foldl_cons, hs]
    exact ih s h0 fun x hx => hd x (List.mem_cons_of_mem d hx)

/-- A component state with the rollout slider moved to 0. -/
def zeroRolloutState : SimState :=
  { initState with rollout := 0 }

/-- C7 instantiation: a rejected draw leaves the initial state untouched, and
with rollout 0 a concrete batch of users leaves the zero-rollout state (and
its `totalUsers = 0`) untouched. -/
theorem simulateUser_frame_applied :
    simulateUser 2 0 0 0 initState = initState ∧
    [((0 : ℚ), (0 : ℚ), (0 : ℚ), (0 : ℚ)), ((0 : ℚ), (0 : ℚ), (0 : ℚ), (0 : ℚ))].foldl
      (fun t d => simulateUser d.1 d.2.1 d.2.2.1 d.2.2.2 t) zeroRolloutState =
      zeroRolloutState :=
  ⟨simulateUser_frame.1 2 0 0 0 initState
      (by norm_num [initState, selectExperiment, checkoutButtonExperiment]),
    simulateUser_frame.2 _ zeroRolloutState rfl (by intro d hd; fin_cases hd <;> norm_num)⟩

/-- The fold inside `getWinningVariant` returns the element of `r :: rs` that
attains the maximum `conversionRate`, and among equal maxima the one occurring
last: the returned element splits the list into a prefix whose rates are at
most its own and a suffix whose rates are strictly below it (JavaScript
`a > b ? a : b` keeps `b` on ties). -/
theorem foldl_reduce_last_max (r : ExperimentResult) (rs : List ExperimentResult) :
    ∃ l₁ l₂,
      r :: rs =
        l₁ ++ (rs.foldl (fun a b => if a.conversionRate > b.conversionRate then a else b) r) :: l₂ ∧
      (∀ x ∈ l₁, x.conversionRate ≤
        (rs.foldl (fun a b => if a.conversionRate > b.conversionRate then a else b) r).conversionRate) ∧
      (∀ x ∈ l₂, x.conversionRate <
        (rs.foldl (fun a b => if a.conversionRate > b.conversionRate then a else b) r).conversionRate) := by
  induction rs generalizing r with
  | nil => exact ⟨[], [], rfl, by simp, by simp⟩
  | cons b bs ih =>
    rw [List.foldl_cons]
    by_cases hrb : r.conversionRate > b.conversionRate
    · rw [if_pos hrb]
      obtain ⟨l₁, l₂, heq, h₁, h₂⟩ := ih r
      cases l₁ with
      | nil =>
        rw [List.nil_append] at heq
        injection heq with hw hbs
        refine ⟨[], b :: l₂, ?_, by simp, ?_⟩
        · rw [List.nil_append, ← hw, hbs]
        · intro x hx
          rcases List.mem_cons.mp hx with rfl | hx
          · exact hw ▸ hrb
          · exact h₂ x hx
      | cons c l₁' =>
        rw [List.cons_append] at heq
        injection heq with hc hbs
        have hcw := h₁ c (List.mem_cons_self c l₁')
        refine ⟨r :: b :: l₁', l₂, ?_, ?_, h₂⟩
        · simp only [List.cons_append]
          exact congrArg (fun t => r :: b :: t) hbs
        · intro x hx
          rcases List.mem_cons.mp hx with rfl | hx
          · exact hc.symm ▸ hcw
          · rcases List.mem_cons.mp hx with rfl | hx
            · exact le_trans (le_of_lt hrb) (hc.symm ▸ hcw)
            · exact h₁ x (List.mem_cons_of_mem c hx)
    · rw [if_neg hrb]
      have hle : r.conversionRate ≤ b.conversionRate := not_lt.mp hrb
      obtain ⟨l₁, l₂, heq, h₁, h₂⟩ := ih b
      cases l₁ with
      | nil =>
        rw [List.nil_append] at heq
        injection heq with hw hbs
        refine ⟨[r], l₂, ?_, ?_, h₂⟩
        · rw [List.cons_append, List.nil_append, ← hw, hbs]
        · intro x hx
          rcases List.mem_cons.mp hx with rfl | hx
          · exact hw ▸ hle
          · cases hx
      | cons c l₁' =>
        rw [List.cons_append] at heq
        injection heq with hc hbs
        have hcw := h₁ c (List.mem_cons_self c l₁')
        refine ⟨r :: b :: l₁', l₂, ?_, ?_, h₂⟩
        · simp only [List.cons_append]
          exact congrArg (fun t => r :: b :: t) hbs
        · intro x hx
          rcases List.mem_cons.mp hx with rfl | hx
          · exact le_trans hle (hc.symm ▸ hcw)
          · rcases List.mem_cons.mp hx with rfl | hx
            · exact hc.symm ▸ hcw
            · exact h₁ x (List.mem_cons_of_mem c hx)

/-- C1 counterexample: with 100 total users and two distinct result rows
sharing the greatest `conversionRate`, `getWinningVariant` returns the second
row, not the first-occurring one. -/
theorem getWinningVariant_tie_returns_last :
    getWinningVariant 100
      [{ variantId := "control", users := 50, conversions := 1, conversionRate := 2 },
       { variantId := "variant-a", users := 50, conversions := 1, conversionRate := 2 }] =
      some { variantId := "variant-a", users := 50, conversions := 1, conversionRate := 2 } ∧
    ({ variantId := "control", users := 50, conversions := 1, conversionRate := 2 } :
        ExperimentResult) ≠
      { variantId := "variant-a", users := 50, conversions := 1, conversionRate := 2 } ∧
    ({ variantId := "control", users := 50, conversions := 1, conversionRate := 2 } :
        ExperimentResult).conversionRate =
      ({ variantId := "variant-a", users := 50, conversions := 1, conversionRate := 2 } :
        ExperimentResult).conversionRate := by
  refine ⟨by rfl, ?_, rfl⟩
  intro h
  exact absurd (congrArg ExperimentResult.variantId h) (by decide)

/-- C1 (amended): on a non-empty results list, `getWinningVariant` returns
`none` exactly when `totalUsers < 100`; when `totalUsers ≥ 100` it returns a
row attaining the greatest `conversionRate`, and among rows sharing that
greatest rate the one occurring last in the list (every earlier row rates at
most it, every later row strictly below it). -/
theorem getWinningVariant_gate_last_max (t : ℕ) (r : ExperimentResult)
    (rs : List ExperimentResult) :
    (getWinningVariant t (r :: rs) = none ↔ t < 100) ∧
    (100 ≤ t → ∃ w l₁ l₂,
      getWinningVariant t (r :: rs) = some w ∧
      r :: rs = l₁ ++ w :: l₂ ∧
      (∀ x ∈ l₁, x.conversionRate ≤ w.conversionRate) ∧
      (∀ x ∈ l₂, x.conversionRate < w.conversionRate)) := by
  constructor
  · unfold getWinningVariant
    by_cases h : t < 100 <;> simp [h]
  · intro h
    have hnl : ¬ t < 100 := not_lt.mpr h
    obtain ⟨l₁, l₂, heq, h₁, h₂⟩ := foldl_reduce_last_max r rs
    exact ⟨_, l₁, l₂, by simp [getWinningVariant, hnl], heq, h₁, h₂⟩

/-- C1 instantiation: under the 100-user gate the result is `none`, and at the
gate with distinct rates the strictly greatest one is returned. -/
theorem getWinningVariant_gate_applied :
    getWinningVariant 99
      [{ variantId := "control", users := 50, conversions := 2, conversionRate := 4 },
       { variantId := "variant-a", users := 49, conversions := 1, conversionRate := 2 }] =
      none :=
  (getWinningVariant_gate_last_max 99
    { variantId := "control", users := 50, conversions := 2, conversionRate := 4 }
    [{ variantId := "variant-a", users := 49, conversions := 1, conversionRate := 2 }]).1.mpr
    (by decide)

/-- A variant with a base conversion rate of 0, the corner case for clamping. -/
def zeroRateVariant : Variant :=
  { id := "v0", name := "Zero Rate", description := "corner case",
    color := "bg-gray-500", conversionRate := 0 }

/-- C2 counterexample: at base rate 0 and the jitter draw `u₃ = 0` (a legal
draw, giving jitter `-0.25`), the adjusted rate computed by the source is
`-0.25`, strictly below 0 and different from the clamped value 0 — the code
does not clamp. -/
theorem adjustedRate_not_clamped :
    adjustedRateOf zeroRateVariant 0 = -(1/4) ∧
    adjustedRateOf zeroRateVariant 0 < 0 ∧
    clampQ (zeroRateVariant.conversionRate + ((0 : ℚ) - 1/2) * (1/2)) 0 100 = 0 ∧
    adjustedRateOf zeroRateVariant 0 ≠
      clampQ (zeroRateVariant.conversionRate + ((0 : ℚ) - 1/2) * (1/2)) 0 100 := by
  have h : zeroRateVariant.conversionRate = 0 := rfl
  refine ⟨?_, ?_, ?_, ?_⟩
  · unfold adjustedRateOf
    rw [h]
    norm_num
  · unfold adjustedRateOf
    rw [h]
    norm_num
  · unfold clampQ
    rw [h]
    rw [min_eq_left (by norm_num), max_eq_left (by norm_num)]
  · unfold adjustedRateOf clampQ
    rw [h]
    rw [min_eq_left (by norm_num), max_eq_left (by norm_num)]
    norm_num

/-- C2 (amended): the adjusted rate used by `simulateUser` is exactly
`baseConversionRate + jitter` with no clamping, where the jitter
`(u₃ - 0.5) * 0.5` ranges over `[-0.25, 0.25)` for `u₃ ∈ [0,1)`; it coincides
with `clamp(base + jitter, 0, 100)` whenever the base rate lies in
`[0.25, 99.75]` (which holds for every variant of the source's experiments),
but not in general. -/
theorem adjustedRate_unclamped (v : Variant) (u : ℚ) (h₀ : 0 ≤ u) (h₁ : u < 1) :
    adjustedRateOf v u = v.conversionRate + (u - 1/2) * (1/2) ∧
    -(1/4) ≤ (u - 1/2) * (1/2) ∧
    (u - 1/2) * (1/2) < 1/4 ∧
    (1/4 ≤ v.conversionRate → v.conversionRate ≤ 100 - 1/4 →
      adjustedRateOf v u = clampQ (v.conversionRate + (u - 1/2) * (1/2)) 0 100) := by
  have hj₁ : -(1/4) ≤ (u - 1/2) * (1/2) := by nlinarith
  have hj₂ : (u - 1/2) * (1/2) < 1/4 := by nlinarith
  refine ⟨rfl, hj₁, hj₂, ?_⟩
  intro hl hu
  unfold adjustedRateOf clampQ
  rw [min_eq_left (by linarith), max_eq_right (by linarith)]

/-- C2 instantiation at the green checkout button variant (base rate 3.2) and
the draw 0: within `[0.25, 99.75]` the unclamped value agrees with the clamped
one. -/
theorem adjustedRate_unclamped_applied :
    adjustedRateOf
      { id := "control", name := "Control (Verde)", description := "Bottone verde attuale",
        color := "bg-green-500", conversionRate := 32/10 } 0 =
    clampQ
      (({ id := "control", name := "Control (Verde)", description := "Bottone verde attuale",
          color := "bg-green-500", conversionRate := 32/10 } : Variant).conversionRate +
        ((0 : ℚ) - 1/2) * (1/2)) 0 100 :=
  (adjustedRate_unclamped _ 0 (by norm_num) (by norm_num)).2.2.2
    (by norm_num) (by norm_num)

/-- `updateRow` never changes a row's `variantId`. -/
theorem updateRow_variantId (v : Variant) (c : Bool) (r : ExperimentResult) :
    (updateRow v c r).variantId = r.variantId := by
  unfold updateRow
  split <;> rfl

/-- Mapping `updateRow` over the results leaves the id column unchanged. -/
theorem map_variantId_updateRow (v : Variant) (c : Bool)
    (rs : List ExperimentResult) :
    (rs.map (updateRow v c)).map (·.variantId) = rs.map (·.variantId) := by
  induction rs with
  | nil => rfl
  | cons r t ih =>
    simp only [List.map_cons, updateRow_variantId, ih]

/-- Mapping `updateRow` adds to the user column exactly one per row whose id
matches the chosen variant. -/
theorem sum_users_map_updateRow (v : Variant) (c : Bool)
    (rs : List ExperimentResult) :
    ((rs.map (updateRow v c)).map (·.users)).sum =
      (rs.map (·.users)).sum + rs.countP (fun r => r.variantId == v.id) := by
  induction rs with
  | nil => rfl
  | cons r t ih =>
    simp only [List.map_cons, List.sum_cons, List.countP_cons]
    by_cases h : r.variantId == v.id
    · simp only [updateRow, h, if_true, ih]
      omega
    · simp only [updateRow, h, if_false, Bool.false_eq_true, ite_false, ih]
      omega

/-- When the id column of the results equals the (duplicate-free) id column of
the variants and the chosen variant belongs to the list, exactly one result
row matches it. -/
theorem countP_variantId_eq_one (rs : List ExperimentResult)
    (vs : List Variant) (v : Variant)
    (hids : rs.map (·.variantId) = vs.map (·.id))
    (hnd : (vs.map (·.id)).Nodup) (hv : v ∈ vs) :
    rs.countP (fun r => r.variantId == v.id) = 1 := by
  have h1 : (rs.map (·.variantId)).countP (fun x => x == v.id) =
      rs.countP (fun r => r.variantId == v.id) := List.countP_map ..
  rw [← h1, hids]
  exact List.count_eq_one_of_mem hnd (List.mem_map_of_mem _ hv)

/-- Row well-formedness: conversions never exceed users and the stored rate is
the recomputed one (with `ℚ` division, `0/0 = 0` matches the zero-initialized
rate). -/
def ResultWF (r : ExperimentResult) : Prop :=
  r.conversions ≤ r.users ∧
  r.conversionRate = ((r.conversions : ℚ) / (r.users : ℚ)) * 100

/-- The simulator-state invariant: the total-user counter equals the summed
user column, every row is well formed, the result rows mirror the selected
experiment's variants (same id column, duplicate-free, non-empty). -/
def StateWF (s : SimState) : Prop :=
  s.totalUsers = (s.results.map (·.users)).sum ∧
  (∀ r ∈ s.results, ResultWF r) ∧
  s.results.map (·.variantId) = s.selectedExperiment.variants.map (·.id) ∧
  (s.selectedExperiment.variants.map (·.id)).Nodup ∧
  s.selectedExperiment.variants ≠ []

/-- Freshly initialized rows: zero column sum, well-formed rows, id column
mirroring the variants. -/
theorem initResults_wf (vs : List Variant) :
    ((initResults vs).map (·.users)).sum = 0 ∧
    (∀ r ∈ initResults vs, ResultWF r) ∧
    (initResults vs).map (·.variantId) = vs.map (·.id) := by
  refine ⟨?_, ?_, ?_⟩
  · induction vs with
    | nil => rfl
    | cons v t ih =>
      simpa [initResults] using ih
  · intro r hr
    simp only [initResults, List.mem_map] at hr
    obtain ⟨v, _, rfl⟩ := hr
    exact ⟨le_refl 0, by norm_num⟩
  · simp [initResults, List.map_map]

/-- Selecting any experiment of the registry yields a well-formed state. -/
theorem stateWF_select (e : Experiment) (he : e ∈ experiments) :
    StateWF (selectExperiment e) := by
  have h := initResults_wf e.variants
  have hmem : e = checkoutButtonExperiment ∨ e = pricingDisplayExperiment := by
    rcases List.mem_cons.mp he with h' | h'
    · exact Or.inl h'
    · rcases List.mem_cons.mp h' with h'' | h''
      · exact Or.inr h''
      · cases h''
  refine ⟨h.1.symm, h.2.1, h.2.2, ?_, ?_⟩
  · rcases hmem with rfl | rfl <;> decide
  · rcases hmem with rfl | rfl <;> exact List.cons_ne_nil _ _

/-- Resetting preserves the invariant. -/
theorem stateWF_reset (s : SimState) (h : StateWF s) :
    StateWF (resetSimulation s) := by
  have hi := initResults_wf s.selectedExperiment.variants
  exact ⟨hi.1.symm, hi.2.1, hi.2.2, h.2.2.2.1, h.2.2.2.2⟩

/-- Bumping the row of a variant of the selected experiment preserves the
invariant: the matched row count is exactly one, so the summed user column
rises by one together with `totalUsers`. -/
theorem stateWF_update (s : SimState) (h : StateWF s) (v : Variant)
    (hv : v ∈ s.selectedExperiment.variants) (c : Bool) :
    StateWF { s with
      totalUsers := s.totalUsers + 1
      results := s.results.map (updateRow v c) } := by
  obtain ⟨hsum, hrows, hids, hnd, hne⟩ := h
  have hcount : s.results.countP (fun r => r.variantId == v.id) = 1 :=
    countP_variantId_eq_one s.results s.selectedExperiment.variants v hids hnd hv
  refine ⟨?_, ?_, ?_, hnd, hne⟩
  · show s.totalUsers + 1 = ((s.results.map (updateRow v c)).map (·.users)).sum
    rw [sum_users_map_updateRow, hcount, hsum]
  · intro r hr
    rw [List.mem_map] at hr
    obtain ⟨r₀, hr₀, rfl⟩ := hr
    have h₀ := hrows r₀ hr₀
    unfold updateRow
    by_cases hm : r₀.variantId == v.id
    · simp only [hm, if_true]
      refine ⟨?_, rfl⟩
      have := h₀.1
      cases c <;> simp <;> omega
    · simp only [hm, if_false, Bool.false_eq_true, ite_false]
      exact h₀
  · show (s.results.map (updateRow v c)).map (·.variantId) =
      s.selectedExperiment.variants.map (·.id)
    rw [map_variantId_updateRow, hids]

/-- A `simulateUser` step with in-range index draw preserves the invariant. -/
theorem stateWF_simulate (u₁ u₂ u₃ u₄ : ℚ) (h₂0 : 0 ≤ u₂) (h₂1 : u₂ < 1)
    (s : SimState) (h : StateWF s) : StateWF (simulateUser u₁ u₂ u₃ u₄ s) := by
  unfold simulateUser
  by_cases hin : u₁ * 100 < s.rollout
  · rw [if_pos hin]
    have hne : s.selectedExperiment.variants ≠ [] := h.2.2.2.2
    have hlen : 0 < s.selectedExperiment.variants.length := List.length_pos.mpr hne
    have hflo : 0 ≤ ⌊u₂ * (s.selectedExperiment.variants.length : ℚ)⌋ :=
      Int.floor_nonneg.mpr (mul_nonneg h₂0 (by positivity))
    have hlt : ⌊u₂ * (s.selectedExperiment.variants.length : ℚ)⌋ <
        (s.selectedExperiment.variants.length : ℤ) := by
      rw [Int.floor_lt]
      push_cast
      calc u₂ * (s.selectedExperiment.variants.length : ℚ) <
          1 * (s.selectedExperiment.variants.length : ℚ) := by
            exact mul_lt_mul_of_pos_right h₂1 (by exact_mod_cast hlen)
        _ = (s.selectedExperiment.variants.length : ℚ) := one_mul _
    have hidx : (⌊u₂ * (s.selectedExperiment.variants.length : ℚ)⌋).toNat <
        s.selectedExperiment.variants.length := by omega
    have hvmem : s.selectedExperiment.variants.getD
        (⌊u₂ * (s.selectedExperiment.variants.length : ℚ)⌋).toNat default ∈
        s.selectedExperiment.variants := by
      rw [List.getD_eq_getElem _ default hidx]
      exact List.getElem_mem ..
    exact stateWF_update s h _ hvmem _
  · rw [if_neg hin]
    exact h

/-- The invariant is preserved along any valid operation sequence. -/
theorem stateWF_foldl (ops : List SimOp) (s : SimState) (hs : StateWF s)
    (hv : ∀ op ∈ ops, ValidOp op) : StateWF (ops.foldl stepOp s) := by
  induction ops generalizing s with
  | nil => exact hs
  | cons op t ih =>
    rw [List.foldl_cons]
    refine ih (stepOp s op) ?_ fun x hx => hv x (List.mem_cons_of_mem _ hx)
    cases op with
    | select e => exact stateWF_select e (hv _ (List.mem_cons_self ..))
    | simulate u₁ u₂ u₃ u₄ =>
      have hop := hv _ (List.mem_cons_self ..)
      exact stateWF_simulate u₁ u₂ u₃ u₄ hop.2.1.1 hop.2.1.2 s hs
    | reset => exact stateWF_reset s hs

/-- C10: after any valid operation sequence from the initialized state,
`totalUsers` equals the sum of the per-variant `users` counters, every row has
`conversions ≤ users`, and every stored `conversionRate` equals
`100 * conversions / users` (0 when `users = 0`). -/
theorem simulator_invariants (ops : List SimOp)
    (hv : ∀ op ∈ ops, ValidOp op) :
    (ops.foldl stepOp initState).totalUsers =
      ((ops.foldl stepOp initState).results.map (·.users)).sum ∧
    ∀ r ∈ (ops.foldl stepOp initState).results,
      r.conversions ≤ r.users ∧
      r.conversionRate =
        if r.users = 0 then 0 else 100 * ((r.conversions : ℚ) / (r.users : ℚ)) := by
  have h := stateWF_foldl ops initState
    (stateWF_select _ (List.mem_cons_self ..)) hv
  refine ⟨h.1, ?_⟩
  intro r hr
  have hrw := h.2.1 r hr
  refine ⟨hrw.1, ?_⟩
  by_cases hu : r.users = 0
  · rw [if_pos hu]
    have hc : r.conversions = 0 := Nat.le_zero.mp (hu ▸ hrw.1)
    rw [hrw.2, hc, hu]
    norm_num
  · rw [if_neg hu, hrw.2]
    ring

/-- C10 instantiation: one admitted user followed by a reset leaves a state
whose counters satisfy the invariant, read back on the zeroed control row. -/
theorem simulator_invariants_applied :
    (List.foldl stepOp initState [SimOp.simulate 0 0 0 0, SimOp.reset]).totalUsers =
      ((List.foldl stepOp initState
        [SimOp.simulate 0 0 0 0, SimOp.reset]).results.map (·.users)).sum ∧
    ({ variantId := "control", users := 0, conversions := 0, conversionRate := 0 } :
        ExperimentResult).conversions ≤
      ({ variantId := "control", users := 0, conversions := 0, conversionRate := 0 } :
        ExperimentResult).users := by
  have hv : ∀ op ∈ [SimOp.simulate 0 0 0 0, SimOp.reset], ValidOp op := by
    intro op hop
    rcases List.mem_cons.mp hop with rfl | hop
    · exact ⟨⟨le_refl 0, by norm_num⟩, ⟨le_refl 0, by norm_num⟩,
        ⟨le_refl 0, by norm_num⟩, ⟨le_refl 0, by norm_num⟩⟩
    · rcases List.mem_cons.mp hop with rfl | hop
      · exact trivial
      · cases hop
  have h := simulator_invariants [SimOp.simulate 0 0 0 0, SimOp.reset] hv
  have hse : (simulateUser 0 0 0 0 initState).selectedExperiment =
      initState.selectedExperiment := by
    unfold simulateUser
    split <;> rfl
  have hres : (List.foldl stepOp initState
      [SimOp.simulate 0 0 0 0, SimOp.reset]).results =
      initResults checkoutButtonExperiment.variants := by
    show (resetSimulation (simulateUser 0 0 0 0 initState)).results = _
    unfold resetSimulation
    rw [hse]
    rfl
  refine ⟨h.1, ?_⟩
  exact (h.2 { variantId := "control", users := 0, conversions := 0, conversionRate := 0 }
    (by rw [hres]; decide)).1
